import Mathlib

/-!
Verification of the echo360 lecture-processing pipeline (app/ package).

Shallow embedding of the pipeline state machine: lecture status columns,
the stream resolver (`app/scraper.py:_extract_stream_url`), the segmented
downloader (`app/async_downloader.py`), the download/convert orchestrator
(`app/pipeline.py`), the startup recovery scan (`app/database.py:init_db`)
and the per-lecture stage entry points (`app/transcriber.py`,
`app/note_generator.py`, `app/frame_extractor.py`, `app/main.py`).

Statuses are stored as free-form strings in the SQLite columns; the closed
vocabulary actually written by the code is modelled as the inductive
`Status`.  File-system effects are modelled by threading an explicit list
of existing paths.  External effects (HTTP fetches, Chrome, ffmpeg) are
modelled as outcome parameters supplied to the embedded functions, placed
exactly at the points where the Python code performs the call.
-/

set_option autoImplicit false

namespace Echo360

/-- The status vocabulary written by the code to the four per-lecture
status columns (`audio_status`, `transcript_status`, `notes_status`,
`frames_status`). -/
inductive Status
  | pending
  | queued
  | downloading
  | downloaded
  | converting
  | done
  | error
  | no_media
  | transcribing
  | generating
  | extracting
deriving DecidableEq, Repr

/-- One `primaryFiles` entry of the raw lesson JSON
(`video.media.media.current.primaryFiles[i]`); `s3Url` is absent or a
string (`obj.get("s3Url")`). -/
structure PrimaryFile where
  s3Url : Option String
deriving DecidableEq, Repr

/-- One `manifests` entry of the raw lesson JSON
(`video.media.media.versions[0].manifests[i]`). -/
structure ManifestEntry where
  uri : Option String
deriving DecidableEq, Repr

/-- A parsed URL as produced by `urllib.parse.urlparse`: scheme, network
location and path.  The Python code only reads these three components. -/
structure UrlParts where
  scheme : String
  netloc : String
  path : String
deriving DecidableEq, Repr

/-- The parts of the raw lesson JSON blob (`lectures.raw_json`) read by
`_extract_stream_url`.  `none` on an optional field models a
`KeyError`/`TypeError`/`IndexError` while traversing the nested dicts
(all caught by the code). -/
structure VideoJson where
  /-- `lesson.video.media.media.current.primaryFiles`, when reachable. -/
  primaryFiles : Option (List PrimaryFile)
  /-- `lesson.hasVideo` (missing key behaves as false under `get`). -/
  hasVideo : Bool
  /-- `lesson.hasAvailableVideo`. -/
  hasAvailableVideo : Bool
  /-- `lesson.video.media.media.versions[0].manifests`, when reachable,
  with each uri pre-parsed into its URL components. -/
  manifests : Option (List ManifestEntry)
  /-- `urlparse` of each manifest uri string, keyed by the uri itself. -/
  parseUri : String → UrlParts

/-- Result of the stream resolver: a single direct MP4 URL or a list of
M3U8 manifest URLs. -/
inductive StreamUrl
  | direct (url : String)
  | manifests (urls : List String)
deriving DecidableEq, Repr

/-- `str.endswith(suffix)`, computed on the underlying character lists so
that concrete instances reduce by `decide`. -/
def strEndsWith (s suffix : String) : Bool :=
  suffix.data.isSuffixOf s.data

/-- Python string truthiness for an optional text column: `None` and the
empty string are falsy. -/
def strTruthy : Option String → Bool
  | none => false
  | some s => s ≠ ""

/-- `app/scraper.py:_extract_stream_url`.  Method 1: last truthy `s3Url`
of `primaryFiles` (`next(reversed(urls))`).  Method 2: requires both
`hasVideo` and `hasAvailableVideo`, then rewrites each manifest uri's
network location to the `content.`-prefixed hostname.  Any missing field
degrades to `none`. -/
def extractStreamUrl (v : VideoJson) (hostnameNetloc : String) : Option StreamUrl :=
  -- Method 1: direct S3 MP4 URL from primaryFiles
  let direct : Option String :=
    match v.primaryFiles with
    | some pfs => ((pfs.filterMap (·.s3Url)).filter (· ≠ "")).getLast?
    | none => none
  match direct with
  | some u => some (.direct u)
  | none =>
    -- Method 2: M3U8 manifests
    if !(v.hasVideo && v.hasAvailableVideo) then
      none
    else
      match v.manifests with
      | none => none
      | some ms =>
        let m3u8urls := (ms.filterMap (·.uri)).filter (· ≠ "")
        if m3u8urls.isEmpty then
          none
        else
          some (.manifests (m3u8urls.map (fun u =>
            let p := v.parseUri u
            p.scheme ++ "://content." ++ hostnameNetloc ++ p.path)))

/-! ## Segmented download (`app/async_downloader.py:download_segments`) -/

/-- One attempt of `client.get(url)` + `raise_for_status` for a segment:
either the segment bytes or the exception message. -/
abbrev Attempt := Except String (List Nat)

/-- `_fetch`'s retry loop for one segment: `for attempt in range(3)`,
storing the bytes on success, sleeping 1 s between failed attempts, and
re-raising the exception of the third failed attempt.  Returns the result
together with the number of 1-second sleeps performed. -/
def fetchSeg (attempt : Nat → Attempt) : Attempt × Nat :=
  match attempt 0 with
  | .ok c => (.ok c, 0)
  | .error _ =>
    match attempt 1 with
    | .ok c => (.ok c, 1)
    | .error _ =>
      match attempt 2 with
      | .ok c => (.ok c, 2)
      | .error e => (.error e, 2)

/-- The concurrent fetch phase of `download_segments`: every segment task
runs `_fetch(i, url)`; `order` is the order in which the scheduler happens
to complete the tasks.  Each completed task records `results[idx] =
r.content`; the first task whose three attempts all fail aborts the whole
`TaskGroup` with its exception. -/
def runFetches (attempts : Nat → Nat → Attempt) :
    List Nat → Except String (List (Nat × List Nat))
  | [] => .ok []
  | i :: rest =>
    match (fetchSeg (attempts i)).1 with
    | .error e => .error e
    | .ok c =>
      match runFetches attempts rest with
      | .error e => .error e
      | .ok rs => .ok ((i, c) :: rs)

/-- Look up the recorded bytes of each index in turn (`results[i]`); a
missing index is a `KeyError`, modelled as `none`. -/
def lookupChunks (results : List (Nat × List Nat)) :
    List Nat → Option (List (List Nat))
  | [] => some []
  | i :: rest =>
    match results.find? (·.1 = i) with
    | none => none
    | some p =>
      match lookupChunks results rest with
      | none => none
      | some rs => some (p.2 :: rs)

/-- The join phase of `download_segments`: `for i in range(total):
out.write(results[i])`, concatenating the chunks in index order. -/
def joinSegments (results : List (Nat × List Nat)) (total : Nat) :
    Option (List Nat) :=
  (lookupChunks results (List.range total)).map (fun chunks => chunks.flatten)

/-- `download_segments`: run all segment fetches (in completion order
`order`, bounded retries per segment), then join strictly by original
segment index.  `.error e` models the TaskGroup propagating a segment's
final exception; in that case no joined file is produced. -/
def downloadSegments (attempts : Nat → Nat → Attempt) (total : Nat)
    (order : List Nat) : Except String (Option (List Nat)) :=
  (runFetches attempts order).map (fun results => joinSegments results total)

/-! ## The lecture row and the world it lives in -/

/-- The columns of one `lectures` row that the pipeline reads and writes
(`app/models.py:Lecture`), plus the course hostname obtained by the join
in `run_download`.  `rawJson` is the pre-parsed `raw_json` blob. -/
structure Lecture where
  audioStatus : Status
  transcriptStatus : Status
  notesStatus : Status
  framesStatus : Status
  audioPath : Option String
  rawPath : Option String
  errorMessage : Option String
  rawJson : VideoJson
  hostname : String

/-- A lecture together with the set of files currently on disk that are
relevant to it (audio file, raw download file). -/
structure World where
  lec : Lecture
  fs : List String

/-- A freshly synced lecture (`app/models.py` column defaults): every
status `pending`, all path and error columns `NULL`. -/
def initLecture (raw : VideoJson) (host : String) : Lecture :=
  { audioStatus := .pending
    transcriptStatus := .pending
    notesStatus := .pending
    framesStatus := .pending
    audioPath := none
    rawPath := none
    errorMessage := none
    rawJson := raw
    hostname := host }

/-! ## Convert stage (`app/pipeline.py:run_convert`) -/

/-- Outcome of `_convert_to_opus` (which internally probes the codec and
runs ffmpeg): `ok` means it returned `True` (so the output file exists),
`failed` means it returned `False`, `raised msg` models an exception
escaping the conversion. -/
inductive ConvertOutcome
  | ok
  | failed
  | raised (msg : String)
deriving DecidableEq, Repr

/-- `run_convert(lecture_id, raw_path, output_dir, filename)`.  Writes
`converting`, then: if the raw path already ends in `.opus` (Chrome
fallback product) it is adopted as the final audio file unchanged;
otherwise ffmpeg converts into `output_dir/filename.opus`, the raw file
is deleted on success, and failure or an exception records `error`.
Returns the resulting world together with whether `_convert_to_opus`
was invoked at all. -/
def runConvert (w : World) (rawPath outputDir filename : String)
    (outcome : ConvertOutcome) : World × Bool :=
  let l1 := { w.lec with audioStatus := .converting }
  let opusPath := outputDir ++ "/" ++ filename ++ ".opus"
  -- If Chrome fallback already produced an opus file, just use it
  if strEndsWith rawPath (".opus") then
    ({ lec := { l1 with audioStatus := .done, audioPath := some rawPath,
                        rawPath := none },
       fs := w.fs }, false)
  else
    match outcome with
    | .ok =>
      ({ lec := { l1 with audioStatus := .done, audioPath := some opusPath,
                          rawPath := none },
         -- ffmpeg replaced any stale output file and wrote opusPath;
         -- os.remove(raw_path) deleted the raw input
         fs := ((w.fs.erase opusPath).erase rawPath) ++ [opusPath] }, true)
    | .failed =>
      ({ lec := { l1 with audioStatus := .error,
                          errorMessage := some ("ffmpeg conversion failed") },
         fs := w.fs }, true)
    | .raised msg =>
      ({ lec := { l1 with audioStatus := .error, errorMessage := some msg },
         fs := w.fs }, true)

/-! ## Download stage (`app/pipeline.py:run_download`) -/

/-- The external outcomes `run_download` can observe: the fast httpx
download (`_download_fast`, which either returns the written raw file's
path or raises) and the Chrome fallback (`_download_chrome_fallback`,
which returns a path, returns `None`, or raises), plus the conversion
outcome for the chained `run_convert`. -/
structure DownloadEnv where
  fastResult : Except Unit String
  chromeResult : Except String (Option String)
  convertOutcome : ConvertOutcome

/-- `run_download`'s skip guard: `audio_status == "done" and
row["audio_path"] and os.path.exists(row["audio_path"])`. -/
def skipDone (w : World) : Bool :=
  w.lec.audioStatus = .done &&
    (match w.lec.audioPath with
     | some p => p ≠ "" && w.fs.contains p
     | none => false)

/-- How the downloading stage of `run_download` ended, before the chained
conversion: skipped because already done, failed with `error` written, or
a raw file fetched with `downloaded` written. -/
inductive StageResult
  | skipped (w : World)
  | failed (w : World)
  | fetched (w : World) (rawPath : String)

/-- The raw file path produced by the fast path, if any: `_download_fast`
is attempted only when a stream URL was resolved, and its exception is
logged and swallowed (`raw_path = None`), falling through to Chrome. -/
def fastPath (streamUrl : Option StreamUrl) (r : Except Unit String) :
    Option String :=
  match streamUrl with
  | some _ =>
    match r with
    | .ok p => some p
    | .error _ => none
  | none => none

/-- The downloading stage of `run_download(lecture_id, output_dir)` (up
to but excluding the inline `run_convert` call).  Skips if already `done`
with an existing audio file; otherwise writes `downloading` (clearing
`error_message`), resolves the stream from the raw metadata, tries the
fast httpx path only when a stream URL was found — its exception is
logged and swallowed — then the Chrome fallback when the fast path
yielded nothing.  An exception from the fallback, or no file from it,
records `error`; a fetched raw file is added to the file system, saved in
`raw_path`, and the lecture transitions to `downloaded`. -/
def downloadStage (w : World) (env : DownloadEnv) : StageResult :=
  if skipDone w then .skipped w
  else
    let w1 : World :=
      { lec := { w.lec with audioStatus := .downloading, errorMessage := none },
        fs := w.fs }
    let streamUrl := extractStreamUrl w.lec.rawJson w.lec.hostname
    match fastPath streamUrl env.fastResult with
    | some rp =>
      .fetched { lec := { w1.lec with audioStatus := .downloaded,
                                      rawPath := some rp },
                 fs := w1.fs ++ [rp] } rp
    | none =>
      match env.chromeResult with
      | .error msg =>
        .failed { w1 with lec := { w1.lec with audioStatus := .error,
                                               errorMessage := some msg } }
      | .ok (some rp) =>
        .fetched { lec := { w1.lec with audioStatus := .downloaded,
                                        rawPath := some rp },
                   fs := w1.fs ++ [rp] } rp
      | .ok none =>
        let msg :=
          if streamUrl.isNone then
            "No stream URL found — lecture may not have available media"
          else
            "Download failed — no file produced"
        .failed { w1 with lec := { w1.lec with audioStatus := .error,
                                               errorMessage := some msg } }

/-- `run_download` in full: the downloading stage followed, when a raw
file was produced, by the inline `run_convert`. -/
def runDownload (w : World) (outputDir filename : String) (env : DownloadEnv) :
    World :=
  match downloadStage w env with
  | .skipped w' => w'
  | .failed w' => w'
  | .fetched w' rp => (runConvert w' rp outputDir filename env.convertOutcome).1

/-! ## Startup recovery scan (`app/database.py:init_db`) -/

/-- `lec.raw_path and os.path.exists(lec.raw_path)`. -/
def rawFileOk (fs : List String) (l : Lecture) : Bool :=
  match l.rawPath with
  | some p => p ≠ "" && fs.contains p
  | none => false

/-- The audio part of the recovery block in `init_db`: the
`queued → pending` UPDATE, then `_recover_downloading` (promote to
`downloaded` when the raw file exists, else record `error` with message
"Download interrupted"), then `_recover_converting` (promote to
`downloaded`, else demote to `pending`). -/
def recoverAudio (fs : List String) (l : Lecture) : Lecture :=
  if l.audioStatus = .queued then { l with audioStatus := .pending }
  else if l.audioStatus = .downloading then
    if rawFileOk fs l then { l with audioStatus := .downloaded }
    else { l with audioStatus := .error,
                  errorMessage := some ("Download interrupted") }
  else if l.audioStatus = .converting then
    if rawFileOk fs l then { l with audioStatus := .downloaded }
    else { l with audioStatus := .pending }
  else l

/-- The transcript UPDATE of the recovery block:
`queued`/`transcribing` → `pending`. -/
def recoverTranscript (l : Lecture) : Lecture :=
  if l.transcriptStatus = .queued ∨ l.transcriptStatus = .transcribing then
    { l with transcriptStatus := .pending }
  else l

/-- The notes UPDATE of the recovery block:
`queued`/`generating` → `pending`. -/
def recoverNotes (l : Lecture) : Lecture :=
  if l.notesStatus = .queued ∨ l.notesStatus = .generating then
    { l with notesStatus := .pending }
  else l

/-- The full recovery block at the end of `init_db`, applied to one
lecture.  No statement of the block touches `frames_status`, `raw_path`
or `audio_path`. -/
def recoverLecture (fs : List String) (l : Lecture) : Lecture :=
  recoverNotes (recoverTranscript (recoverAudio fs l))

/-! ## Manual and bulk download admission (`app/main.py`) -/

/-- `POST /api/lectures/{id}/download` (`main.py:download_lecture`): a
lecture is admitted only from `pending`, `error` or `no_media`; any other
status is returned unchanged.  Result: the updated lecture, the status
reported to the caller, and whether a download task was enqueued. -/
def downloadLecture (l : Lecture) : Lecture × Status × Bool :=
  if l.audioStatus = .pending ∨ l.audioStatus = .error ∨
      l.audioStatus = .no_media then
    ({ l with audioStatus := .queued }, .queued, true)
  else
    (l, l.audioStatus, false)

/-- The per-lecture admission step of `POST /api/lectures/bulk-download`
(`main.py:bulk_download`): same admission set as the single-lecture
endpoint; inadmissible lectures are skipped (`continue`). -/
def bulkDownloadStep (l : Lecture) : Lecture × Bool :=
  if l.audioStatus = .pending ∨ l.audioStatus = .error ∨
      l.audioStatus = .no_media then
    ({ l with audioStatus := .queued }, true)
  else
    (l, false)

/-- `POST /api/lectures/{id}/redownload` (`main.py:redownload_lecture`):
deletes the existing audio file, resets the audio stage to `queued` with
both path columns cleared, resets transcript and notes to `pending` and
clears the error message.  (`bulk_redownload` performs the same writes
per lecture.) -/
def redownloadLecture (w : World) : World :=
  let fs' :=
    match w.lec.audioPath with
    | some p => if p ≠ "" && w.fs.contains p then w.fs.erase p else w.fs
    | none => w.fs
  { lec := { w.lec with audioStatus := .queued, audioPath := none,
                        rawPath := none, transcriptStatus := .pending,
                        notesStatus := .pending, errorMessage := none },
    fs := fs' }

/-- The database part of `main.py:_cleanup_raw_files`: lectures that are
`done` but still carry a stale `raw_path` get the column cleared. -/
def cleanupRawPath (l : Lecture) : Lecture :=
  if l.audioStatus = .done ∧ l.rawPath ≠ none then { l with rawPath := none }
  else l

/-! ## Stage entry points: transcript, notes, frames

Each stage function is modelled as the sequence of lecture rows it writes
to the store (earliest first); an empty trace means the function returned
without writing anything. -/

/-- Outcome of the external transcription call inside
`transcribe_lecture` (`_transcribe_cloud` / groq / modal / local):
success or an exception message. -/
abbrev StageOutcome := Except String Unit

/-- `app/transcriber.py:transcribe_lecture`: returns immediately unless
`audio_status == "done"` with a truthy `audio_path`, and unless the
transcript is not already `done`; otherwise writes `transcribing`
(clearing the error message), then `done` on success or `error` with the
truncated exception text. -/
def transcribeLecture (l : Lecture) (outcome : StageOutcome) : List Lecture :=
  if l.audioStatus ≠ .done ∨ strTruthy l.audioPath = false then []
  else if l.transcriptStatus = .done then []
  else
    let l1 := { l with transcriptStatus := .transcribing,
                       errorMessage := none }
    match outcome with
    | .ok _ => [l1, { l1 with transcriptStatus := .done }]
    | .error e =>
      [l1, { l1 with transcriptStatus := .error,
                     errorMessage := some (e.take 500) }]

/-- `app/note_generator.py:generate_notes`: returns immediately unless
`transcript_status == "done"` and a transcript row exists; otherwise
writes `generating` (clearing the error message), then `done` on success
or `error` with the truncated exception text. -/
def generateNotes (l : Lecture) (hasTranscript : Bool)
    (outcome : StageOutcome) : List Lecture :=
  if l.transcriptStatus ≠ .done then []
  else if !hasTranscript then []
  else
    let l1 := { l with notesStatus := .generating, errorMessage := none }
    match outcome with
    | .ok _ => [l1, { l1 with notesStatus := .done }]
    | .error e =>
      [l1, { l1 with notesStatus := .error,
                     errorMessage := some (e.take 500) }]

/-- `app/frame_extractor.py:extract_frames`: returns immediately only
when the latest note is missing or carries no frame timestamps — the
lecture's `notes_status` is never consulted.  Otherwise writes
`extracting`, then `done` on success or `error` with a prefixed message
(re-raising the exception). -/
def extractFrames (l : Lecture) (noteHasTimestamps : Bool)
    (outcome : StageOutcome) : List Lecture :=
  if !noteHasTimestamps then []
  else
    let l1 := { l with framesStatus := .extracting }
    match outcome with
    | .ok _ => [l1, { l1 with framesStatus := .done }]
    | .error e =>
      [l1, { l1 with framesStatus := .error,
                     errorMessage := some ("Frame extraction: " ++ e) }]

/-! ## Sample data used by concrete witnesses -/

/-- A raw metadata blob with no reachable media information at all. -/
def sampleVJ : VideoJson :=
  { primaryFiles := none, hasVideo := false, hasAvailableVideo := false,
    manifests := none, parseUri := fun _ => ⟨"", "", ""⟩ }

/-- A raw metadata blob carrying only a manifest reference and
`hasVideo = false`: the no-media scenario of the spec. -/
def noMediaVJ : VideoJson :=
  { primaryFiles := none, hasVideo := false, hasAvailableVideo := true,
    manifests := some [⟨some ("https://h.echo360.org/p.m3u8")⟩],
    parseUri := fun _ => ⟨"https", "h.echo360.org", "/p.m3u8"⟩ }

def sampleHost : String := "h.echo360.org"

/-! ## Recovery scan lemmas -/

theorem recoverAudio_idem (fs : List String) (l : Lecture) :
    recoverAudio fs (recoverAudio fs l) = recoverAudio fs l := by
  cases h : l.audioStatus <;>
    simp_all [recoverAudio, rawFileOk] <;> split <;> simp_all

theorem recoverTranscript_idem (l : Lecture) :
    recoverTranscript (recoverTranscript l) = recoverTranscript l := by
  cases h : l.transcriptStatus <;> simp_all [recoverTranscript]

theorem recoverNotes_idem (l : Lecture) :
    recoverNotes (recoverNotes l) = recoverNotes l := by
  cases h : l.notesStatus <;> simp_all [recoverNotes]

theorem rA_rT_comm (fs : List String) (l : Lecture) :
    recoverAudio fs (recoverTranscript l) =
      recoverTranscript (recoverAudio fs l) := by
  unfold recoverAudio recoverTranscript rawFileOk
  split_ifs <;> simp_all

theorem rA_rN_comm (fs : List String) (l : Lecture) :
    recoverAudio fs (recoverNotes l) = recoverNotes (recoverAudio fs l) := by
  unfold recoverAudio recoverNotes rawFileOk
  split_ifs <;> simp_all

theorem rT_rN_comm (l : Lecture) :
    recoverTranscript (recoverNotes l) =
      recoverNotes (recoverTranscript l) := by
  unfold recoverTranscript recoverNotes
  split_ifs <;> simp_all

/-- C7: the startup recovery scan is idempotent — running it a second
time immediately after a first run, with no intervening writes (same
lecture row, same file system), changes nothing: every status it produces
(`pending`, `downloaded`, `error`) is outside the sets of statuses it
rewrites (`queued`, `downloading`, `converting`, `transcribing`,
`generating`), and it never touches `raw_path`. -/
theorem recover_scan_idempotent (fs : List String) (l : Lecture) :
    recoverLecture fs (recoverLecture fs l) = recoverLecture fs l := by
  unfold recoverLecture
  rw [rA_rN_comm, rA_rT_comm, recoverAudio_idem, rT_rN_comm,
    recoverTranscript_idem, recoverNotes_idem]

/-- C9: when the raw downloaded file's path already ends in `.opus` (the
Chrome fallback's product), `run_convert` performs no probe or re-encode
(`_convert_to_opus` is not invoked, witnessed by the `false` flag) and
finishes with `audio_status = done`, `audio_path` equal to that raw file
path — so the fallback's filename is kept, not the normalized
`output_dir/filename.opus` — and `raw_path` cleared. -/
theorem convert_opus_shortcut (w : World) (rawPath outputDir filename : String)
    (outcome : ConvertOutcome) (h : strEndsWith rawPath (".opus") = true) :
    runConvert w rawPath outputDir filename outcome =
      ({ lec := { w.lec with audioStatus := .done, audioPath := some rawPath,
                             rawPath := none }, fs := w.fs }, false) := by
  simp [runConvert, h]

/-- Witness for C9 at a concrete fallback-produced `.opus` file. -/
theorem convert_opus_shortcut_witness :
    runConvert ⟨initLecture sampleVJ sampleHost, []⟩ ("/c/L.opus") ("/c")
        ("L") ConvertOutcome.failed =
      ({ lec := { (initLecture sampleVJ sampleHost) with
                    audioStatus := .done,
                    audioPath := some ("/c/L.opus"),
                    rawPath := none },
         fs := [] }, false) :=
  convert_opus_shortcut _ _ _ _ _ (by decide)

/-- C10: the manual per-lecture download endpoint (and the per-lecture
admission step of bulk-download) admits exactly the statuses `pending`,
`error` and `no_media` — setting the lecture to `queued` and scheduling a
download — and for every other status changes nothing, merely reporting
the current status. -/
theorem download_admission (l : Lecture) :
    (l.audioStatus = .pending ∨ l.audioStatus = .error ∨
        l.audioStatus = .no_media →
      downloadLecture l = ({ l with audioStatus := .queued }, .queued, true) ∧
      bulkDownloadStep l = ({ l with audioStatus := .queued }, true)) ∧
    (l.audioStatus ≠ .pending ∧ l.audioStatus ≠ .error ∧
        l.audioStatus ≠ .no_media →
      downloadLecture l = (l, l.audioStatus, false) ∧
      bulkDownloadStep l = (l, false)) := by
  constructor
  · intro h
    simp [downloadLecture, bulkDownloadStep, h]
  · rintro ⟨h1, h2, h3⟩
    simp [downloadLecture, bulkDownloadStep, h1, h2, h3]

/-- Witness for C10: a `no_media` lecture is manually retryable. -/
theorem download_admission_witness :
    downloadLecture
        { (initLecture sampleVJ sampleHost) with audioStatus := .no_media } =
      ({ (initLecture sampleVJ sampleHost) with audioStatus := .queued },
        .queued, true) :=
  ((download_admission _).1 (by simp)).1

theorem recoverAudio_stage_fields (fs : List String) (l : Lecture) :
    (recoverAudio fs l).transcriptStatus = l.transcriptStatus ∧
    (recoverAudio fs l).notesStatus = l.notesStatus ∧
    (recoverAudio fs l).framesStatus = l.framesStatus := by
  unfold recoverAudio
  split_ifs <;> simp

/-- C2 counterexample: the recovery scan does not reset `frames_status`;
a lecture crashed mid-extraction stays in `extracting` instead of being
reset to `pending` (`init_db` has UPDATE statements for the transcript
and notes columns only). -/
theorem recovery_frames_not_reset_cex :
    (recoverLecture []
        { (initLecture sampleVJ sampleHost) with framesStatus := .extracting }
      ).framesStatus = .extracting ∧
    ((recoverLecture []
        { (initLecture sampleVJ sampleHost) with framesStatus := .extracting }
      ).framesStatus = Status.pending → False) := by
  constructor
  · rfl
  · decide

/-- C2 (amended): the startup recovery scan resets
`transcript_status = transcribing` and `notes_status = generating` back
to `pending`, but it never touches `frames_status` — a lecture in
`extracting` keeps that status. -/
theorem recovery_reset_actives (fs : List String) (l : Lecture) :
    (l.transcriptStatus = .transcribing →
      (recoverLecture fs l).transcriptStatus = .pending) ∧
    (l.notesStatus = .generating →
      (recoverLecture fs l).notesStatus = .pending) ∧
    (recoverLecture fs l).framesStatus = l.framesStatus := by
  unfold recoverLecture recoverNotes recoverTranscript
  obtain ⟨ht, hn, hf⟩ := recoverAudio_stage_fields fs l
  split_ifs <;> simp_all

/-- Witness for C2 (amended): a lecture crashed mid-transcription is
reset to `pending`. -/
theorem recovery_reset_actives_witness :
    (recoverLecture []
        { (initLecture sampleVJ sampleHost) with
            transcriptStatus := .transcribing }).transcriptStatus = .pending :=
  (recovery_reset_actives [] _).1 rfl

/-- C3 counterexample: `extract_frames` becomes active (`extracting`) on
a lecture whose `notes_status` is `error` — the frames stage checks only
that the latest note carries frame timestamps, not `notes_status`. -/
theorem frames_ignores_notes_status_cex :
    ((extractFrames
        { (initLecture sampleVJ sampleHost) with
            audioStatus := .done, transcriptStatus := .done,
            notesStatus := .error }
        true (.ok ())).map (·.framesStatus) = [.extracting, .done]) ∧
    ({ (initLecture sampleVJ sampleHost) with
        audioStatus := .done, transcriptStatus := .done,
        notesStatus := .error } : Lecture).notesStatus = .error ∧
    (Status.error = .done → False) := by
  refine ⟨rfl, rfl, by decide⟩

/-- C3 (amended): the transcript stage re-checks `audio_status = done`
(with a truthy `audio_path`) against the store before writing any state,
and the notes stage re-checks `transcript_status = done` (plus the
existence of a transcript row); the frames stage, however, progresses
exactly when the latest note has frame timestamps, independently of
`notes_status` — which is checked only at the API enqueue step. -/
theorem stage_preconditions (l : Lecture) (o : StageOutcome)
    (hasTranscript noteTs : Bool) :
    (transcribeLecture l o ≠ [] →
      l.audioStatus = .done ∧ strTruthy l.audioPath = true) ∧
    (generateNotes l hasTranscript o ≠ [] →
      l.transcriptStatus = .done ∧ hasTranscript = true) ∧
    ((extractFrames l noteTs o ≠ []) ↔ noteTs = true) ∧
    (∀ s : Status,
      extractFrames { l with notesStatus := s } noteTs o =
        (extractFrames l noteTs o).map
          (fun x => { x with notesStatus := s })) := by
  refine ⟨?_, ?_, ?_, ?_⟩
  · intro h
    by_cases h1 : l.audioStatus = .done
    · by_cases h2 : strTruthy l.audioPath = true
      · exact ⟨h1, h2⟩
      · simp [transcribeLecture, h1, h2] at h
    · simp [transcribeLecture, h1] at h
  · intro h
    by_cases h1 : l.transcriptStatus = .done
    · by_cases h2 : hasTranscript = true
      · exact ⟨h1, h2⟩
      · simp_all [generateNotes]
    · simp_all [generateNotes]
  · cases noteTs <;> cases o <;> simp [extractFrames]
  · intro s
    cases noteTs <;> cases o <;> rfl

/-- Witness for C3 (amended): a transcription that did start implies the
audio stage had finished. -/
theorem stage_preconditions_witness :
    ({ (initLecture sampleVJ sampleHost) with
        audioStatus := .done,
        audioPath := some ("/c/L.opus") } : Lecture).audioStatus = .done :=
  ((stage_preconditions _ (.ok ()) true true).1
    (by simp [transcribeLecture, strTruthy, initLecture])).1

/-! ## Segmented-download theorems -/

theorem runFetches_ok (attempts : Nat → Nat → Attempt) (f : Nat → List Nat)
    (order : List Nat)
    (h : ∀ i ∈ order, (fetchSeg (attempts i)).1 = .ok (f i)) :
    runFetches attempts order = .ok (order.map (fun i => (i, f i))) := by
  induction order with
  | nil => rfl
  | cons a as ih =>
    have ha := h a (List.mem_cons_self a as)
    have ih' := ih (fun i hi => h i (List.mem_cons_of_mem a hi))
    simp [runFetches, ha, ih']

theorem runFetches_error (attempts : Nat → Nat → Attempt) (order : List Nat)
    (j : Nat) (hj : j ∈ order) (e : String)
    (he : (fetchSeg (attempts j)).1 = .error e) :
    ∃ e', runFetches attempts order = .error e' ∧
      ∃ k ∈ order, (fetchSeg (attempts k)).1 = .error e' := by
  induction order with
  | nil => cases hj
  | cons a as ih =>
    cases hfa : (fetchSeg (attempts a)).1 with
    | error ea =>
      exact ⟨ea, by simp [runFetches, hfa], a, List.mem_cons_self a as, hfa⟩
    | ok ca =>
      rcases List.mem_cons.1 hj with rfl | hj'
      · rw [hfa] at he; cases he
      · rcases ih hj' with ⟨e', hrun, k, hk, hke⟩
        exact ⟨e', by simp [runFetches, hfa, hrun],
          k, List.mem_cons_of_mem a hk, hke⟩

theorem find_map_pair (g : Nat → List Nat) (order : List Nat) (i : Nat)
    (hi : i ∈ order) :
    (order.map (fun k => (k, g k))).find? (·.1 = i) = some (i, g i) := by
  induction order with
  | nil => cases hi
  | cons a as ih =>
    by_cases hai : a = i
    · subst hai
      simp [List.find?]
    · rcases List.mem_cons.1 hi with rfl | hi'
      · exact absurd rfl hai
      · simp only [List.map_cons, List.find?]
        have : (decide ((a, g a).1 = i)) = false := by
          simp [hai]
        rw [this]
        exact ih hi'

theorem map_getD_range (l : List (List Nat)) :
    (List.range l.length).map (fun i => l.getD i []) = l := by
  apply List.ext_getElem
  · simp
  · intro i h1 h2
    simp [List.getD_eq_getElem?_getD, List.getElem?_eq_getElem h2]

theorem lookupChunks_ok (results : List (Nat × List Nat)) (g : Nat → List Nat)
    (is : List Nat) (h : ∀ i ∈ is, results.find? (·.1 = i) = some (i, g i)) :
    lookupChunks results is = some (is.map g) := by
  induction is with
  | nil => rfl
  | cons a as ih =>
    have ha := h a (List.mem_cons_self a as)
    have ih' := ih (fun i hi => h i (List.mem_cons_of_mem a hi))
    simp [lookupChunks, ha, ih']

/-- C4: for a non-empty segment list, when every segment's fetch
succeeds, the joined output equals the byte concatenation of the segments
in original index order, for every completion order of the concurrent
fetches. -/
theorem segments_join_order_preserving
    (contents : List (List Nat)) (attempts : Nat → Nat → Attempt)
    (order : List Nat) (_hne : contents ≠ [])
    (hperm : order.Perm (List.range contents.length))
    (hok : ∀ i ∈ order, (fetchSeg (attempts i)).1 = .ok (contents.getD i [])) :
    downloadSegments attempts contents.length order =
      .ok (some contents.flatten) := by
  have hrun : runFetches attempts order =
      .ok (order.map (fun i => (i, contents.getD i []))) :=
    runFetches_ok attempts (fun i => contents.getD i []) order hok
  have hcollect :
      lookupChunks (order.map fun i => (i, contents.getD i []))
        (List.range contents.length) =
        some ((List.range contents.length).map (fun i => contents.getD i [])) :=
    lookupChunks_ok _ _ _ (fun i hi =>
      find_map_pair _ order i (hperm.mem_iff.2 hi))
  have hjoin : joinSegments (order.map fun i => (i, contents.getD i []))
      contents.length = some contents.flatten := by
    rw [joinSegments, hcollect, map_getD_range]
    rfl
  rw [downloadSegments, hrun]
  simp only [Except.map]
  rw [hjoin]

/-- Witness for C4: segments A=[1], B=[2], C=[3] completing in order
C, A, B still join to A + B + C. -/
theorem segments_join_order_preserving_witness :
    downloadSegments (fun i _ => .ok ([[1],[2],[3]].getD i [])) 3 [2, 0, 1] =
      .ok (some [1, 2, 3]) :=
  segments_join_order_preserving [[1],[2],[3]] _ _ (by decide) (by decide)
    (by intro i hi; fin_cases hi <;> rfl)

/-- C5: a segment's fetch is attempted at most 3 times with a 1-second
sleep between attempts (so a segment that fails twice still succeeds on
its 3rd attempt after 2 sleeps); when all 3 attempts fail the whole
segmented download aborts with a segment's underlying error propagated
and no joined output is ever reported as success. -/
theorem segment_retry_abort
    (attempts : Nat → Nat → Attempt) (total : Nat) (order : List Nat)
    (j : Nat) (hj : j ∈ order) (e0 e1 e2 : String)
    (h0 : attempts j 0 = .error e0) (h1 : attempts j 1 = .error e1)
    (h2 : attempts j 2 = .error e2) :
    fetchSeg (attempts j) = (.error e2, 2) ∧
    (∃ e', downloadSegments attempts total order = .error e' ∧
      ∃ k ∈ order, (fetchSeg (attempts k)).1 = .error e') ∧
    (∀ res, downloadSegments attempts total order ≠ .ok res) ∧
    (∀ (t : Nat → Attempt) (c : List Nat) (f0 f1 : String),
      t 0 = .error f0 → t 1 = .error f1 → t 2 = .ok c →
        fetchSeg t = (.ok c, 2)) := by
  have hfs : (fetchSeg (attempts j)).1 = .error e2 := by
    simp [fetchSeg, h0, h1, h2]
  rcases runFetches_error attempts order j hj e2 hfs with ⟨e', hrun, hk⟩
  refine ⟨by simp [fetchSeg, h0, h1, h2],
    ⟨e', by simp [downloadSegments, hrun, Except.map], hk⟩, ?_, ?_⟩
  · intro res
    simp [downloadSegments, hrun, Except.map]
  · intro t c f0 f1 g0 g1 g2
    simp [fetchSeg, g0, g1, g2]

/-- Witness for C5: one segment failing all 3 attempts makes the whole
download abort rather than succeed. -/
theorem segment_retry_abort_witness :
    downloadSegments
        (fun i _ => if i = 1 then .error ("boom") else .ok [i]) 3 [0, 1, 2] ≠
      .ok (some [0, 1, 2]) :=
  (segment_retry_abort _ 3 [0, 1, 2] 1 (by decide) ("boom") ("boom") ("boom")
    rfl rfl rfl).2.2.1 (some [0, 1, 2])

/-! ## Download-stage theorems -/

theorem fastPath_error (su : Option StreamUrl) :
    fastPath su (.error ()) = none := by
  cases su <;> rfl

/-- C1 counterexample: for a lecture whose metadata holds only a manifest
reference with `hasVideo = false`, the resolver returns nothing, yet
`run_download` (with the Chrome fallback also finding no stream) sets
`audio_status = error`, not the distinct terminal status `no_media`. -/
theorem no_media_error_cex :
    extractStreamUrl noMediaVJ sampleHost = none ∧
    (runDownload ⟨initLecture noMediaVJ sampleHost, []⟩ ("/out") ("f")
        ⟨.error (), .ok none, .ok⟩).lec.audioStatus = .error ∧
    ((runDownload ⟨initLecture noMediaVJ sampleHost, []⟩ ("/out") ("f")
        ⟨.error (), .ok none, .ok⟩).lec.audioStatus = .no_media → False) := by
  refine ⟨rfl, rfl, by decide⟩

/-- C1 (amended): when the resolver yields no stream and the Chrome
fallback produces no file, the download stage sets `audio_status = error`
with the message "No stream URL found — lecture may not have available
media"; `no_media` is never written by the download stage, so such
lectures are not excluded from bulk-retry. -/
theorem download_no_stream_error (w : World) (outputDir filename : String)
    (env : DownloadEnv)
    (hres : extractStreamUrl w.lec.rawJson w.lec.hostname = none)
    (hnd : skipDone w = false)
    (hchrome : env.chromeResult = .ok none) :
    (runDownload w outputDir filename env).lec.audioStatus = .error ∧
    (runDownload w outputDir filename env).lec.errorMessage =
      some ("No stream URL found — lecture may not have available media") := by
  simp [runDownload, downloadStage, hres, hnd, hchrome, fastPath]

/-- Witness for C1 (amended) at the concrete no-media metadata blob. -/
theorem download_no_stream_error_witness :
    (runDownload ⟨initLecture noMediaVJ sampleHost, []⟩ ("/out") ("f")
        ⟨.ok ("/x.ts"), .ok none, .ok⟩).lec.errorMessage =
      some ("No stream URL found — lecture may not have available media") :=
  (download_no_stream_error ⟨initLecture noMediaVJ sampleHost, []⟩ ("/out")
    ("f") ⟨.ok ("/x.ts"), .ok none, .ok⟩ rfl rfl rfl).2

/-- C8: within the downloading stage the fast httpx path and the Chrome
fallback run in strict sequence (the functional model evaluates the
fallback only after the fast path's result is known): a fast-path
exception is swallowed and the fallback attempted, and the stage writes
`audio_status = error` with a recorded message only when the fallback
itself raised or produced no file. -/
theorem download_fallback_sequence (w : World) (env : DownloadEnv) :
    (∀ w', downloadStage w env = .failed w' →
      (((∃ m, env.chromeResult = .error m) ∨ env.chromeResult = .ok none) ∧
        w'.lec.audioStatus = .error ∧ w'.lec.errorMessage ≠ none)) ∧
    (∀ rp, skipDone w = false → env.fastResult = .error () →
      env.chromeResult = .ok (some rp) →
      ∃ w', downloadStage w env = .fetched w' rp ∧
        w'.lec.audioStatus = .downloaded ∧ w'.lec.rawPath = some rp) := by
  constructor
  · intro w' hw
    by_cases hs : skipDone w
    · simp [downloadStage, hs] at hw
    · cases hfp : fastPath (extractStreamUrl w.lec.rawJson w.lec.hostname)
          env.fastResult with
      | some rp => simp [downloadStage, hs, hfp] at hw
      | none =>
        cases hcr : env.chromeResult with
        | error m =>
          simp only [downloadStage, hs, if_false, hfp, hcr] at hw
          cases hw
          exact ⟨Or.inl ⟨m, rfl⟩, rfl, by simp⟩
        | ok op =>
          cases op with
          | none =>
            simp only [downloadStage, hs, if_false, hfp, hcr] at hw
            cases hw
            refine ⟨Or.inr rfl, rfl, ?_⟩
            split <;> simp
          | some rp => simp [downloadStage, hs, hfp, hcr] at hw
  · intro rp hs hfr hcr
    have hfp : fastPath (extractStreamUrl w.lec.rawJson w.lec.hostname)
        env.fastResult = none := by
      rw [hfr]; exact fastPath_error _
    exact ⟨{ lec := { w.lec with
                        audioStatus := .downloaded,
                        errorMessage := none,
                        rawPath := some rp },
             fs := w.fs ++ [rp] },
      by simp [downloadStage, hs, hfp, hcr], rfl, rfl⟩

/-- Witness for C8: a failing fast path followed by a Chrome fallback
that produces a file ends in `downloaded`, not `error`. -/
theorem download_fallback_sequence_witness :
    ∃ w', downloadStage ⟨initLecture noMediaVJ sampleHost, []⟩
        ⟨.error (), .ok (some ("/raw_download.ts")), .ok⟩ =
      .fetched w' ("/raw_download.ts") ∧
      w'.lec.audioStatus = .downloaded ∧
      w'.lec.rawPath = some ("/raw_download.ts") :=
  (download_fallback_sequence ⟨initLecture noMediaVJ sampleHost, []⟩
    ⟨.error (), .ok (some ("/raw_download.ts")), .ok⟩).2
    ("/raw_download.ts") rfl rfl rfl

/-! ## The audio-path/raw-path invariant (C6) -/

/-- The audio-side storage invariant of one lecture: `audio_path` is set
iff the audio stage is `done`; a `done` lecture has no `raw_path`; and a
set `audio_path` names a non-empty path of an existing file. -/
def AudioInv (w : World) : Prop :=
  (w.lec.audioPath.isSome ↔ w.lec.audioStatus = .done) ∧
  (w.lec.audioStatus = .done → w.lec.rawPath = none) ∧
  (∀ p, w.lec.audioPath = some p → p ≠ "" ∧ p ∈ w.fs)

/-- Paths returned by the fast downloader and the Chrome fallback are
paths of files they created, in particular non-empty strings. -/
def EnvWF (env : DownloadEnv) : Prop :=
  (∀ p, env.fastResult = .ok p → p ≠ "") ∧
  (∀ p, env.chromeResult = .ok (some p) → p ≠ "")

theorem strEndsWith_ne_empty (p : String)
    (h : strEndsWith p (".opus") = true) : p ≠ "" := by
  intro hp
  subst hp
  exact absurd h (by decide)

theorem opus_path_ne_empty (d f : String) : d ++ "/" ++ f ++ ".opus" ≠ "" := by
  intro h
  have := congrArg String.length h
  simp [String.length_append] at this
  exact absurd this.2 (by decide)

theorem runConvert_inv (w : World) (rp d f : String) (o : ConvertOutcome)
    (hInv : AudioInv w) (hst : w.lec.audioStatus = .downloaded)
    (hrp : rp ≠ "") (hmem : rp ∈ w.fs) :
    AudioInv (runConvert w rp d f o).1 := by
  obtain ⟨hiff, hraw, hpath⟩ := hInv
  have hap : w.lec.audioPath = none := by
    cases hap : w.lec.audioPath with
    | none => rfl
    | some p =>
      have hdone := hiff.1 (by simp [hap])
      rw [hst] at hdone
      cases hdone
  cases hb : strEndsWith rp (".opus") with
  | true =>
    refine ⟨by simp [runConvert, hb], by simp [runConvert, hb], ?_⟩
    intro p hp
    simp [runConvert, hb] at hp
    subst hp
    exact ⟨hrp, by simp [runConvert, hb, hmem]⟩
  | false =>
    cases o with
    | ok =>
      refine ⟨by simp [runConvert, hb], by simp [runConvert, hb], ?_⟩
      intro p hp
      simp [runConvert, hb] at hp
      subst hp
      refine ⟨opus_path_ne_empty d f, ?_⟩
      simp [runConvert, hb]
    | failed =>
      refine ⟨by simp [runConvert, hb, hap], by simp [runConvert, hb], ?_⟩
      intro p hp
      simp [runConvert, hb, hap] at hp
    | raised msg =>
      refine ⟨by simp [runConvert, hb, hap], by simp [runConvert, hb], ?_⟩
      intro p hp
      simp [runConvert, hb, hap] at hp

theorem fastPath_some (su : Option StreamUrl) (r : Except Unit String)
    (p : String) (h : fastPath su r = some p) : r = .ok p := by
  cases su <;> cases r <;> simp_all [fastPath]

theorem notSkip_not_done (w : World) (hInv : AudioInv w)
    (hs : skipDone w = false) :
    w.lec.audioPath = none ∧ w.lec.audioStatus ≠ .done := by
  obtain ⟨hiff, hraw, hpath⟩ := hInv
  cases hap : w.lec.audioPath with
  | none =>
    refine ⟨rfl, fun hdone => ?_⟩
    have := hiff.2 hdone
    rw [hap] at this
    cases this
  | some p =>
    have hdone : w.lec.audioStatus = .done := hiff.1 (by simp [hap])
    obtain ⟨hne, hmem⟩ := hpath p hap
    have : skipDone w = true := by
      simp [skipDone, hdone, hap, hne, hmem]
    rw [this] at hs
    cases hs

theorem downloadStage_cases (w : World) (env : DownloadEnv) :
    (downloadStage w env = .skipped w ∧ skipDone w = true) ∨
    (∃ msg, skipDone w = false ∧ downloadStage w env =
      .failed { lec := { w.lec with
                          audioStatus := .error,
                          errorMessage := some msg },
                fs := w.fs }) ∨
    (∃ rp, skipDone w = false ∧
      (env.fastResult = .ok rp ∨ env.chromeResult = .ok (some rp)) ∧
      downloadStage w env =
        .fetched { lec := { w.lec with
                             audioStatus := .downloaded,
                             errorMessage := none,
                             rawPath := some rp },
                   fs := w.fs ++ [rp] } rp) := by
  by_cases hs : skipDone w
  · exact Or.inl ⟨by simp [downloadStage, hs], hs⟩
  · right
    have hs' : skipDone w = false := by simpa using hs
    cases hfp : fastPath (extractStreamUrl w.lec.rawJson w.lec.hostname)
        env.fastResult with
    | some rp =>
      exact Or.inr ⟨rp, hs', Or.inl (fastPath_some _ _ _ hfp),
        by simp [downloadStage, hs, hfp]⟩
    | none =>
      cases hcr : env.chromeResult with
      | error m =>
        exact Or.inl ⟨m, hs', by simp [downloadStage, hs, hfp, hcr]⟩
      | ok op =>
        cases op with
        | none =>
          refine Or.inl
            ⟨if (extractStreamUrl w.lec.rawJson w.lec.hostname).isNone then
                "No stream URL found — lecture may not have available media"
              else "Download failed — no file produced", hs', ?_⟩
          simp [downloadStage, hs, hfp, hcr]
        | some rp =>
          exact Or.inr ⟨rp, hs', Or.inr rfl,
            by simp [downloadStage, hs, hfp, hcr]⟩

theorem runDownload_inv (w : World) (d f : String) (env : DownloadEnv)
    (hInv : AudioInv w) (hWF : EnvWF env) :
    AudioInv (runDownload w d f env) := by
  rcases downloadStage_cases w env with ⟨hds, _⟩ | ⟨msg, hs, hds⟩ |
      ⟨rp, hs, hprov, hds⟩
  · rw [runDownload, hds]
    exact hInv
  · obtain ⟨hap, hnd⟩ := notSkip_not_done w hInv hs
    rw [runDownload, hds]
    refine ⟨by simp [hap], by simp, ?_⟩
    intro p hp
    simp [hap] at hp
  · obtain ⟨hap, hnd⟩ := notSkip_not_done w hInv hs
    rw [runDownload, hds]
    have hrp : rp ≠ "" := by
      rcases hprov with hfr | hcr
      · exact hWF.1 rp hfr
      · exact hWF.2 rp hcr
    apply runConvert_inv
    · refine ⟨by simp [hap], by simp, ?_⟩
      intro p hp
      simp [hap] at hp
    · rfl
    · exact hrp
    · simp

theorem recoverAudio_audio_fields (fs : List String) (l : Lecture) :
    (recoverAudio fs l).audioPath = l.audioPath ∧
    (recoverAudio fs l).rawPath = l.rawPath ∧
    ((recoverAudio fs l).audioStatus = .done ↔ l.audioStatus = .done) := by
  cases h : l.audioStatus <;>
    simp_all [recoverAudio, rawFileOk] <;> split <;> simp_all

theorem recover_audio_fields (fs : List String) (l : Lecture) :
    (recoverLecture fs l).audioPath = l.audioPath ∧
    (recoverLecture fs l).rawPath = l.rawPath ∧
    ((recoverLecture fs l).audioStatus = .done ↔ l.audioStatus = .done) := by
  obtain ⟨h1, h2, h3⟩ := recoverAudio_audio_fields fs l
  unfold recoverLecture recoverNotes recoverTranscript
  split_ifs <;> simp_all

theorem recover_inv (w : World) (hInv : AudioInv w) :
    AudioInv ⟨recoverLecture w.fs w.lec, w.fs⟩ := by
  obtain ⟨hiff, hraw, hpath⟩ := hInv
  obtain ⟨hap, hrp, hst⟩ := recover_audio_fields w.fs w.lec
  refine ⟨?_, ?_, ?_⟩
  · show (recoverLecture w.fs w.lec).audioPath.isSome = true ↔
      (recoverLecture w.fs w.lec).audioStatus = .done
    rw [hap, hst]
    exact hiff
  · intro h
    show (recoverLecture w.fs w.lec).rawPath = none
    rw [hrp]
    exact hraw (hst.1 h)
  · intro p hp
    exact hpath p (hap ▸ hp)

theorem downloadLecture_inv (w : World) (hInv : AudioInv w) :
    AudioInv ⟨(downloadLecture w.lec).1, w.fs⟩ := by
  obtain ⟨hiff, hraw, hpath⟩ := hInv
  unfold downloadLecture
  split_ifs with h
  · have hnd : w.lec.audioStatus ≠ .done := by
      rcases h with h | h | h <;> rw [h] <;> decide
    have hap : w.lec.audioPath = none := by
      cases hap : w.lec.audioPath with
      | none => rfl
      | some p => exact absurd (hiff.1 (by simp [hap])) hnd
    exact ⟨by simp [hap], by simp, fun p hp => by simp [hap] at hp⟩
  · exact ⟨hiff, hraw, hpath⟩

theorem bulkDownloadStep_inv (w : World) (hInv : AudioInv w) :
    AudioInv ⟨(bulkDownloadStep w.lec).1, w.fs⟩ := by
  obtain ⟨hiff, hraw, hpath⟩ := hInv
  unfold bulkDownloadStep
  split_ifs with h
  · have hnd : w.lec.audioStatus ≠ .done := by
      rcases h with h | h | h <;> rw [h] <;> decide
    have hap : w.lec.audioPath = none := by
      cases hap : w.lec.audioPath with
      | none => rfl
      | some p => exact absurd (hiff.1 (by simp [hap])) hnd
    exact ⟨by simp [hap], by simp, fun p hp => by simp [hap] at hp⟩
  · exact ⟨hiff, hraw, hpath⟩

theorem redownload_inv (w : World) :
    AudioInv (redownloadLecture w) := by
  refine ⟨by simp [redownloadLecture], by simp [redownloadLecture], ?_⟩
  intro p hp
  simp [redownloadLecture] at hp

theorem cleanup_inv (w : World) (hInv : AudioInv w) :
    AudioInv ⟨cleanupRawPath w.lec, w.fs⟩ := by
  obtain ⟨hiff, hraw, hpath⟩ := hInv
  unfold cleanupRawPath
  split_ifs with h
  · exact ⟨hiff, fun _ => rfl, hpath⟩
  · exact ⟨hiff, hraw, hpath⟩

theorem transcribe_trace_inv (w : World) (o : StageOutcome)
    (hInv : AudioInv w) :
    ∀ l' ∈ transcribeLecture w.lec o, AudioInv ⟨l', w.fs⟩ := by
  intro l' hl'
  unfold transcribeLecture at hl'
  split_ifs at hl'
  · cases hl'
  · cases hl'
  · cases o with
    | ok _ =>
      rcases List.mem_cons.1 hl' with rfl | hl2
      · exact hInv
      rcases List.mem_cons.1 hl2 with rfl | hl3
      · exact hInv
      cases hl3
    | error e =>
      rcases List.mem_cons.1 hl' with rfl | hl2
      · exact hInv
      rcases List.mem_cons.1 hl2 with rfl | hl3
      · exact hInv
      cases hl3

theorem notes_trace_inv (w : World) (ht : Bool) (o : StageOutcome)
    (hInv : AudioInv w) :
    ∀ l' ∈ generateNotes w.lec ht o, AudioInv ⟨l', w.fs⟩ := by
  intro l' hl'
  unfold generateNotes at hl'
  split_ifs at hl'
  · cases hl'
  · cases hl'
  · cases o with
    | ok _ =>
      rcases List.mem_cons.1 hl' with rfl | hl2
      · exact hInv
      rcases List.mem_cons.1 hl2 with rfl | hl3
      · exact hInv
      cases hl3
    | error e =>
      rcases List.mem_cons.1 hl' with rfl | hl2
      · exact hInv
      rcases List.mem_cons.1 hl2 with rfl | hl3
      · exact hInv
      cases hl3

theorem frames_trace_inv (w : World) (nt : Bool) (o : StageOutcome)
    (hInv : AudioInv w) :
    ∀ l' ∈ extractFrames w.lec nt o, AudioInv ⟨l', w.fs⟩ := by
  intro l' hl'
  unfold extractFrames at hl'
  split_ifs at hl'
  · cases hl'
  · cases o with
    | ok _ =>
      rcases List.mem_cons.1 hl' with rfl | hl2
      · exact hInv
      rcases List.mem_cons.1 hl2 with rfl | hl3
      · exact hInv
      cases hl3
    | error e =>
      rcases List.mem_cons.1 hl' with rfl | hl2
      · exact hInv
      rcases List.mem_cons.1 hl2 with rfl | hl3
      · exact hInv
      cases hl3

/-- C6 counterexample: a failed conversion leaves the lecture in `error`
while `raw_path` is still set (kept so the retry can skip re-download),
so `raw_path` can be non-null outside {downloading, downloaded,
converting}. -/
theorem raw_path_kept_on_error_cex :
    ((runConvert ⟨{ (initLecture sampleVJ sampleHost) with
                      audioStatus := .downloaded,
                      rawPath := some ("/c/raw_download.ts") },
                   ["/c/raw_download.ts"]⟩ ("/c/raw_download.ts") ("/c") ("L")
        ConvertOutcome.failed).1.lec.audioStatus = .error) ∧
    ((runConvert ⟨{ (initLecture sampleVJ sampleHost) with
                      audioStatus := .downloaded,
                      rawPath := some ("/c/raw_download.ts") },
                   ["/c/raw_download.ts"]⟩ ("/c/raw_download.ts") ("/c") ("L")
        ConvertOutcome.failed).1.lec.rawPath = some ("/c/raw_download.ts")) ∧
    (Status.error ≠ .downloading ∧ Status.error ≠ .downloaded ∧
      Status.error ≠ .converting) := by
  refine ⟨rfl, rfl, by decide⟩

/-- C6 (amended): every pipeline operation preserves the invariant that
`audio_path` is non-null iff `audio_status = done` (and then names an
existing, non-empty path) and that `raw_path` is null whenever
`audio_status = done`; `raw_path` may however survive into `error` (and a
subsequent `queued`) after a failed conversion, not only
downloading/downloaded/converting.  Covered operations: a fresh lecture,
`run_download` (with well-formed downloader results), `run_convert` as
re-enqueued on a `downloaded` lecture, the recovery scan, manual and bulk
download admission, re-download, the startup `raw_path` cleanup, and the
write sequences of the transcribe/notes/frames stages. -/
theorem audio_invariant_preserved :
    (∀ raw host, AudioInv ⟨initLecture raw host, []⟩) ∧
    (∀ w d f env, AudioInv w → EnvWF env →
      AudioInv (runDownload w d f env)) ∧
    (∀ w rp d f o, AudioInv w → w.lec.audioStatus = .downloaded → rp ≠ "" →
      rp ∈ w.fs → AudioInv (runConvert w rp d f o).1) ∧
    (∀ w, AudioInv w → AudioInv ⟨recoverLecture w.fs w.lec, w.fs⟩) ∧
    (∀ w, AudioInv w → AudioInv ⟨(downloadLecture w.lec).1, w.fs⟩) ∧
    (∀ w, AudioInv w → AudioInv ⟨(bulkDownloadStep w.lec).1, w.fs⟩) ∧
    (∀ w, AudioInv w → AudioInv (redownloadLecture w)) ∧
    (∀ w, AudioInv w → AudioInv ⟨cleanupRawPath w.lec, w.fs⟩) ∧
    (∀ w o, AudioInv w →
      ∀ l' ∈ transcribeLecture w.lec o, AudioInv ⟨l', w.fs⟩) ∧
    (∀ w ht o, AudioInv w →
      ∀ l' ∈ generateNotes w.lec ht o, AudioInv ⟨l', w.fs⟩) ∧
    (∀ w nt o, AudioInv w →
      ∀ l' ∈ extractFrames w.lec nt o, AudioInv ⟨l', w.fs⟩) := by
  refine ⟨?_, ?_, ?_, ?_, ?_, ?_, ?_, ?_, ?_, ?_, ?_⟩
  · intro raw host
    exact ⟨by simp [initLecture], by simp [initLecture],
      fun p hp => by simp [initLecture] at hp⟩
  · intro w d f env hInv hWF
    exact runDownload_inv w d f env hInv hWF
  · intro w rp d f o hInv hst hrp hmem
    exact runConvert_inv w rp d f o hInv hst hrp hmem
  · intro w hInv
    exact recover_inv w hInv
  · intro w hInv
    exact downloadLecture_inv w hInv
  · intro w hInv
    exact bulkDownloadStep_inv w hInv
  · intro w _
    exact redownload_inv w
  · intro w hInv
    exact cleanup_inv w hInv
  · intro w o hInv
    exact transcribe_trace_inv w o hInv
  · intro w ht o hInv
    exact notes_trace_inv w ht o hInv
  · intro w nt o hInv
    exact frames_trace_inv w nt o hInv

/-- Witness for C6 (amended): the invariant holds after running the
download on a fresh no-media lecture. -/
theorem audio_invariant_preserved_witness :
    AudioInv (runDownload ⟨initLecture noMediaVJ sampleHost, []⟩ ("/out")
      ("f") ⟨.error (), .ok none, .ok⟩) :=
  audio_invariant_preserved.2.1 ⟨initLecture noMediaVJ sampleHost, []⟩
    ("/out") ("f") ⟨.error (), .ok none, .ok⟩
    (audio_invariant_preserved.1 noMediaVJ sampleHost)
    ⟨fun p h => by simp at h, fun p h => by simp at h⟩

end Echo360
